import Mathlib

/-!
# Verification of the multiqueue MPMC facade

This development embeds the MPMC (work-sharing) view of the multiqueue ring
buffer, as exposed by `src/mpmc.rs`, and settles the specified properties
against it.

The file `src/mpmc.rs` is a thin facade: `MPMCSender::try_send`,
`MPMCReceiver::try_recv`/`recv`/`unsubscribe`, `MPMCUniReceiver::try_recv_view`/
`recv_view` are direct pass-throughs to the inner engine
(`InnerSend`/`InnerRecv` over `MultiQueue<MPMC<T>, T>`), whose source is not
part of the analysed tree.  The engine is therefore modelled from the spec
(each such definition carries a `Modelled from the spec:` doc comment), while
the facade-level code (error types chosen in `src/mpmc.rs` line 5, the
iterator `MPMCIter`, the constructors `mpmc_queue`) is embedded directly from
the source.

The queue is modelled sequentially-consistently: all handles share one
`MPMCState`, and concurrent executions are arbitrary interleavings of the
atomic operations (each CAS-claimed send/recv is one step).
-/

namespace Multiqueue

/-- `std::sync::mpsc::TrySendError`, as imported by `src/mpmc.rs` line 5 and
returned by `MPMCSender::try_send`.  It has exactly the two variants of the
standard library type: `Full(T)` and `Disconnected(T)`. -/
inductive TrySendError (T : Type) : Type where
  | full (v : T)
  | disconnected (v : T)
  deriving DecidableEq

/-- `std::sync::mpsc::TryRecvError`, as imported by `src/mpmc.rs` line 5 and
returned by `MPMCReceiver::try_recv` and `MPMCUniReceiver::try_recv`.  It has
exactly the two variants of the standard library type: `Empty` and
`Disconnected`. -/
inductive TryRecvError : Type where
  | empty
  | disconnected
  deriving DecidableEq, Fintype

/-- `std::sync::mpsc::RecvError`, as imported by `src/mpmc.rs` line 5 and
returned by the blocking `recv`.  The standard library type is a unit struct:
it carries no information beyond "the channel is disconnected". -/
inductive RecvError : Type where
  | recvError
  deriving DecidableEq

/-- Modelled from the spec: the shared state of one
`MultiQueue<MPMC<T>, T>` ring buffer (the inner engine is not part of the
analysed tree).  `sent` is the list of published elements, so the published
tail position is `sent.length`; `claimed` is the single work-sharing group's
shared claim cursor (every position below it has been delivered to exactly
one group member); `writers`/`readers` are the live producer count and the
group's live consumer count from the subscription registry. -/
structure MPMCState (T : Type) : Type where
  capacity : Nat
  sent : List T
  claimed : Nat
  writers : Nat
  readers : Nat
  deriving DecidableEq

variable {T R : Type}

/-- Modelled from the spec: `InnerSend::try_send`, behind
`MPMCSender::try_send` (`src/mpmc.rs` lines 82-84).  Non-blocking.  If there
are no live consumers it returns `Disconnected(v)`; else if the target slot's
prior occupant has not been fully consumed (the unconsumed window
`sent.length - claimed` has reached `capacity`) it returns `Full(v)`; else it
publishes the value at the tail. -/
def try_send (s : MPMCState T) (v : T) : Except (TrySendError T) Unit × MPMCState T :=
  if s.readers = 0 then (.error (.disconnected v), s)
  else if s.capacity ≤ s.sent.length - s.claimed then (.error (.full v), s)
  else (.ok (), { s with sent := s.sent ++ [v] })

/-- Modelled from the spec: `InnerRecv::try_recv` in the work-sharing
discipline, behind `MPMCReceiver::try_recv` (`src/mpmc.rs` lines 126-128).
Atomically claims the shared cursor position if an element is published
there; otherwise reports `Empty` while producers remain, and `Disconnected`
once every producer handle is gone and the cursor has passed the last
published position. -/
def try_recv (s : MPMCState T) : Except TryRecvError T × MPMCState T :=
  if h : s.claimed < s.sent.length then
    (.ok (s.sent.get ⟨s.claimed, h⟩), { s with claimed := s.claimed + 1 })
  else if s.writers = 0 then (.error .disconnected, s)
  else (.error .empty, s)

/-- Modelled from the spec: the blocking `InnerRecv::recv`, behind
`MPMCReceiver::recv` (`src/mpmc.rs` lines 130-132): retry `try_recv`, on
`Empty` invoking the wait strategy and retrying.  `fuel` counts wait-strategy
rounds; `none` means the call is still blocked after `fuel` rounds. -/
def recvLoop : Nat → MPMCState T → Option (Except RecvError T × MPMCState T)
  | 0, _ => none
  | fuel + 1, s =>
    match try_recv s with
    | (.ok v, s1) => some (.ok v, s1)
    | (.error .disconnected, s1) => some (.error .recvError, s1)
    | (.error .empty, _) => recvLoop fuel s

/-- The logical outcome of a blocking `recv` call: `some` when the call
returns, `none` when it blocks (sequentially, a state that reports `Empty`
stays `Empty`, so one wait round decides the outcome). -/
def recvBlocking (s : MPMCState T) : Option (Except RecvError T × MPMCState T) :=
  recvLoop 1 s

/-- Modelled from the spec: `InnerRecv::unsubscribe`, behind
`MPMCReceiver::unsubscribe` (`src/mpmc.rs` lines 148-150) and
`MPMCUniReceiver::unsubscribe` (lines 214-216): decrements the group's
live-member count and returns whether the departing member was the last. -/
def unsubscribe (s : MPMCState T) : Bool × MPMCState T :=
  (s.readers == 1, { s with readers := s.readers - 1 })

/-- Modelled from the spec: `MPMCSender::unsubscribe`
(`src/mpmc.rs` lines 87-89): removes this writer from the queue. -/
def unsubscribeWriter (s : MPMCState T) : MPMCState T :=
  { s with writers := s.writers - 1 }

/-- Modelled from the spec: `InnerRecv::try_recv_view`, behind
`MPMCUniReceiver::try_recv_view` (`src/mpmc.rs` lines 191-193): the in-place
view read.  It applies the closure to the value in place instead of moving it
out, followed by the same cursor/slot bookkeeping; on failure the closure is
handed back unapplied together with the error and nothing is consumed. -/
def try_recv_view (op : T → R) (s : MPMCState T) :
    Except ((T → R) × TryRecvError) R × MPMCState T :=
  if h : s.claimed < s.sent.length then
    (.ok (op (s.sent.get ⟨s.claimed, h⟩)), { s with claimed := s.claimed + 1 })
  else if s.writers = 0 then (.error (op, .disconnected), s)
  else (.error (op, .empty), s)

/-- Modelled from the spec: `InnerRecv::recv_view`, behind
`MPMCUniReceiver::recv_view` (`src/mpmc.rs` lines 196-198): the blocking view
read; same outcome as blocking `recv` with the closure applied in place on
success and returned unapplied on failure. -/
def recv_view (op : T → R) (s : MPMCState T) :
    Option (Except ((T → R) × RecvError) R × MPMCState T) :=
  match recvBlocking s with
  | some (.ok v, s1) => some (.ok (op v), s1)
  | some (.error e, s1) => some (.error (op, e), s1)
  | none => none

/-- `MPMCIter` from `src/mpmc.rs` lines 219-221: the iterator holding the
receiver it consumes. -/
structure MPMCIter (T : Type) : Type where
  recv : MPMCState T
  deriving DecidableEq

/-- `MPMCIter::next` from `src/mpmc.rs` lines 226-231:
`match self.recv.recv() { Ok(val) => Some(val), Err(_) => None }`.
The outer `Option` is `none` when the blocking `recv` never returns; the
inner `Option` is the iterator's yielded value. -/
def MPMCIter.next (it : MPMCIter T) : Option (Option T × MPMCIter T) :=
  match recvBlocking it.recv with
  | some (.ok v, s1) => some (some v, ⟨s1⟩)
  | some (.error _, s1) => some (none, ⟨s1⟩)
  | none => none

/-- `is_power_of_two` on the capacity, as the spec requires of construction. -/
def isPowerOfTwo (n : Nat) : Bool :=
  (List.range (n + 1)).any fun k => 2 ^ k == n

/-- Modelled from the spec: `MultiQueue::<MPMC<T>, T>::new` (the inner engine
constructor called by `mpmc_queue`, not part of the analysed tree).
Constructing with a capacity that is not a power of two is fatal at
construction time, modelled as `none`; otherwise the fresh queue starts empty
with one producer handle and one consumer handle. -/
def MultiQueue.new (T : Type) (capacity : Nat) : Option (MPMCState T) :=
  if isPowerOfTwo capacity then
    some { capacity := capacity, sent := [], claimed := 0, writers := 1, readers := 1 }
  else none

/-- `mpmc_queue` from `src/mpmc.rs` lines 245-248: delegates to
`MultiQueue::<MPMC<T>, T>::new` and wraps the two handles (which share the
one queue state modelled here). -/
def mpmc_queue (T : Type) (capacity : Nat) : Option (MPMCState T) :=
  MultiQueue.new T capacity

/-- One atomic operation performed by some handle on the shared queue.
Cloning a handle requires a live handle of that kind to clone, so a retired
group or writer set can never regain members. -/
inductive QAction (T : Type) : Type where
  | trySend (v : T)
  | tryRecv
  | cloneReader
  | cloneWriter
  | unsubReader
  | unsubWriter
  deriving DecidableEq

/-- The state transition of one atomic operation (its result discarded). -/
def qstep (s : MPMCState T) : QAction T → MPMCState T
  | .trySend v => (try_send s v).2
  | .tryRecv => (try_recv s).2
  | .cloneReader => if s.readers = 0 then s else { s with readers := s.readers + 1 }
  | .cloneWriter => if s.writers = 0 then s else { s with writers := s.writers + 1 }
  | .unsubReader => (unsubscribe s).2
  | .unsubWriter => unsubscribeWriter s

/-- Run a list of atomic operations from a state. -/
def qrun (s : MPMCState T) (acts : List (QAction T)) : MPMCState T :=
  acts.foldl qstep s

/-- One step of an execution with one producer and `n` work-sharing
consumers: the producer performs a `try_send`, or group member `i` performs a
completed receive (a `recv`/`try_recv` whose claim of the shared cursor
succeeded; a failed `try_recv` leaves the state unchanged, so only successful
claims matter for what is delivered). -/
inductive GAction (n : Nat) (T : Type) : Type where
  | send (v : T)
  | recv (i : Fin n)
  deriving DecidableEq

/-- Queue state plus, for each group member, the list of
(position, value) pairs it has received, in its local receipt order. -/
structure ExecState (n : Nat) (T : Type) : Type where
  q : MPMCState T
  recvd : Fin n → List (Nat × T)

/-- Interleaved execution step: `send v` publishes if the queue accepts it;
`recv i` lets member `i` attempt the shared-cursor claim, recording the
(position, value) it wins, or changing nothing when `try_recv` fails. -/
def execStep {n : Nat} (es : ExecState n T) : GAction n T → ExecState n T
  | .send v => { es with q := (try_send es.q v).2 }
  | .recv i =>
    match try_recv es.q with
    | (.ok v, q1) =>
      { q := q1, recvd := Function.update es.recvd i (es.recvd i ++ [(es.q.claimed, v)]) }
    | (.error _, _) => es

/-- The initial execution state: a fresh queue of capacity `cap` with one
producer and `n` group members, none of which has received anything. -/
def initExec (n : Nat) (cap : Nat) (T : Type) : ExecState n T :=
  { q := { capacity := cap, sent := [], claimed := 0, writers := 1, readers := n },
    recvd := fun _ => [] }

/-- Run an interleaving of sends and receives. -/
def execRun {n : Nat} (es : ExecState n T) (acts : List (GAction n T)) : ExecState n T :=
  acts.foldl execStep es

/-- The inductive invariant of work-sharing executions: the cursor never
passes the tail; each member's received positions are strictly increasing
and below the cursor; each received value is the element published at its
position; the positions received across the group are exactly
`0, …, claimed-1`, each exactly once; and the values received across the
group are exactly the published prefix below the cursor. -/
structure ExecInv {n : Nat} (es : ExecState n T) : Prop where
  claimed_le : es.q.claimed ≤ es.q.sent.length
  pos_mono : ∀ i : Fin n, ((es.recvd i).map Prod.fst).Pairwise (· < ·)
  pos_lt : ∀ (i : Fin n) (p : Nat) (v : T), (p, v) ∈ es.recvd i → p < es.q.claimed
  vals : ∀ (i : Fin n) (p : Nat) (v : T), (p, v) ∈ es.recvd i → es.q.sent.get? p = some v
  posM : (∑ i : Fin n, (((es.recvd i).map Prod.fst : List Nat) : Multiset Nat))
      = Multiset.range es.q.claimed
  valM : (∑ i : Fin n, (((es.recvd i).map Prod.snd : List T) : Multiset T))
      = ((es.q.sent.take es.q.claimed : List T) : Multiset T)

/-- A sample state whose consumer group has been fully unsubscribed. -/
def exNoReaders : MPMCState Nat :=
  { capacity := 2, sent := [], claimed := 0, writers := 1, readers := 0 }

/-- A sample live state holding one published, unclaimed element. -/
def exOne : MPMCState Nat :=
  { capacity := 2, sent := [5], claimed := 0, writers := 1, readers := 1 }

/-- `exOne` after its element has been claimed. -/
def exOneDone : MPMCState Nat :=
  { capacity := 2, sent := [5], claimed := 1, writers := 1, readers := 1 }

/-- A sample drained state whose producers are all gone. -/
def exDrained : MPMCState Nat :=
  { capacity := 2, sent := [5], claimed := 1, writers := 0, readers := 1 }

/-- A sample two-consumer interleaving that drains the queue. -/
def exActs2 : List (GAction 2 Nat) :=
  [.send 10, .send 20, .recv 0, .recv 1]

/-- A sample single-consumer interleaving that drains the queue. -/
def exActs1 : List (GAction 1 Nat) :=
  [.send 1, .recv 0, .send 2, .recv 0]

/-- A sample lifecycle run performed after the last consumer unsubscribed. -/
def exActsQ : List (QAction Nat) :=
  [.trySend 5, .tryRecv, .cloneWriter]

/-- Once the consumer group has no live member, no operation revives it. -/
theorem readers_zero_qstep (s : MPMCState T) (a : QAction T) (h : s.readers = 0) :
    (qstep s a).readers = 0 := by
  cases a with
  | trySend v =>
    simp [qstep, try_send, h]
  | tryRecv =>
    simp only [qstep, try_recv]
    split
    · exact h
    · split <;> exact h
  | cloneReader => simp [qstep, h]
  | cloneWriter =>
    simp only [qstep]
    split <;> exact h
  | unsubReader => simp [qstep, unsubscribe, h]
  | unsubWriter => simp [qstep, unsubscribeWriter, h]

/-- Once the consumer group has no live member, it stays empty along any run. -/
theorem readers_zero_qrun (s : MPMCState T) (acts : List (QAction T)) (h : s.readers = 0) :
    (qrun s acts).readers = 0 := by
  induction acts generalizing s with
  | nil => exact h
  | cons a acts ih => exact ih (qstep s a) (readers_zero_qstep s a h)

theorem execInv_init (n : Nat) (cap : Nat) : ExecInv (initExec n cap T) := by
  constructor <;> simp [initExec]

/-- `try_send` either rejects the value leaving the state unchanged, or
appends it to the published sequence (claim counters and registry
untouched). -/
theorem try_send_snd (s : MPMCState T) (v : T) :
    (try_send s v).2 = s ∨ (try_send s v).2 = { s with sent := s.sent ++ [v] } := by
  unfold try_send
  split
  · exact Or.inl rfl
  · split
    · exact Or.inl rfl
    · exact Or.inr rfl

/-- A successful `try_recv` returns the element published at the claim
cursor and advances the cursor by one, changing nothing else. -/
theorem try_recv_ok {s : MPMCState T} {v : T} {s1 : MPMCState T}
    (h : try_recv s = (.ok v, s1)) :
    ∃ hlt : s.claimed < s.sent.length,
      v = s.sent.get ⟨s.claimed, hlt⟩ ∧ s1 = { s with claimed := s.claimed + 1 } := by
  unfold try_recv at h
  split at h
  · rename_i hlt
    refine ⟨hlt, ?_, ?_⟩ <;> simp_all
  · split at h <;> simp_all

/-- A failed `try_recv` leaves the state unchanged. -/
theorem try_recv_error {s : MPMCState T} {e : TryRecvError} {s1 : MPMCState T}
    (h : try_recv s = (.error e, s1)) : s1 = s := by
  unfold try_recv at h
  split at h
  · simp_all
  · split at h <;> simp_all

theorem sum_update_append {n : Nat} {β : Type} (f : Fin n → List (Nat × T)) (i : Fin n)
    (e : Nat × T) (g : Nat × T → β) :
    (∑ j : Fin n, (((Function.update f i (f i ++ [e]) j).map g : List β) : Multiset β))
      = (∑ j : Fin n, (((f j).map g : List β) : Multiset β)) + {g e} := by
  have hcomp : (fun j => (((Function.update f i (f i ++ [e]) j).map g : List β) : Multiset β))
      = Function.update (fun j => (((f j).map g : List β) : Multiset β)) i
          ((((f i).map g : List β) : Multiset β) + ({g e} : Multiset β)) := by
    funext j
    by_cases hj : j = i
    · subst hj
      simp only [Function.update_same, List.map_append, List.map_cons, List.map_nil]
      rfl
    · simp [Function.update_noteq hj]
  rw [hcomp, Finset.sum_update_of_mem (Finset.mem_univ i),
      Finset.sum_eq_sum_diff_singleton_add (Finset.mem_univ i)]
  abel

/-- The work-sharing invariant is preserved by every interleaved step. -/
theorem execInv_step {n : Nat} (es : ExecState n T) (a : GAction n T)
    (inv : ExecInv es) : ExecInv (execStep es a) := by
  obtain ⟨cle, pmono, plt, pvals, pposM, pvalM⟩ := inv
  cases a with
  | send v =>
    rcases try_send_snd es.q v with hs | hs
    · simp only [execStep, hs]
      exact ⟨cle, pmono, plt, pvals, pposM, pvalM⟩
    · simp only [execStep, hs]
      refine ⟨?_, pmono, plt, ?_, pposM, ?_⟩
      · simp only [List.length_append, List.length_cons, List.length_nil]
        omega
      · intro i p w hmem
        have hp : p < es.q.claimed := plt i p w hmem
        rw [List.get?_append (by omega)]
        exact pvals i p w hmem
      · rw [List.take_append_eq_append_take, Nat.sub_eq_zero_of_le cle,
            List.take_zero, List.append_nil]
        exact pvalM
  | recv i =>
    simp only [execStep]
    split
    · rename_i v q1 heq
      obtain ⟨hlt, hv, hq1⟩ := try_recv_ok heq
      subst hv hq1
      refine ⟨hlt, ?_, ?_, ?_, ?_, ?_⟩
      · intro j
        dsimp only
        by_cases hj : j = i
        · subst hj
          rw [Function.update_same, List.map_append]
          rw [List.pairwise_append]
          refine ⟨pmono j, List.pairwise_singleton _ _, ?_⟩
          intro a ha b hb
          simp only [List.map_cons, List.map_nil, List.mem_singleton] at hb
          subst hb
          obtain ⟨⟨p, w⟩, hmem, hfst⟩ := List.mem_map.mp ha
          subst hfst
          exact plt j p w hmem
        · rw [Function.update_noteq hj]
          exact pmono j
      · intro j p w hmem
        dsimp only at hmem ⊢
        by_cases hj : j = i
        · subst hj
          rw [Function.update_same] at hmem
          rcases List.mem_append.mp hmem with hold | hnew
          · exact Nat.lt_succ_of_lt (plt j p w hold)
          · simp only [List.mem_singleton, Prod.mk.injEq] at hnew
            omega
        · rw [Function.update_noteq hj] at hmem
          exact Nat.lt_succ_of_lt (plt j p w hmem)
      · intro j p w hmem
        dsimp only at hmem ⊢
        by_cases hj : j = i
        · subst hj
          rw [Function.update_same] at hmem
          rcases List.mem_append.mp hmem with hold | hnew
          · exact pvals j p w hold
          · simp only [List.mem_singleton, Prod.mk.injEq] at hnew
            obtain ⟨hp, hw⟩ := hnew
            subst hp hw
            exact List.get?_eq_get hlt
        · rw [Function.update_noteq hj] at hmem
          exact pvals j p w hmem
      · dsimp only
        rw [sum_update_append, pposM]
        dsimp only
        rw [Multiset.range_succ, add_comm, Multiset.singleton_add]
      · dsimp only
        rw [sum_update_append, pvalM]
        dsimp only
        rw [List.take_succ, List.getElem?_eq_getElem hlt]
        simp only [Option.toList_some]
        rfl
    · exact ⟨cle, pmono, plt, pvals, pposM, pvalM⟩

/-- The work-sharing invariant holds after any interleaved run. -/
theorem execInv_run {n : Nat} (es : ExecState n T) (acts : List (GAction n T))
    (inv : ExecInv es) : ExecInv (execRun es acts) := by
  induction acts generalizing es with
  | nil => exact inv
  | cons a acts ih => exact ih (execStep es a) (execInv_step es a inv)

/-- The boolean power-of-two test agrees with the mathematical one. -/
theorem isPowerOfTwo_iff (n : Nat) : isPowerOfTwo n = true ↔ ∃ k, n = 2 ^ k := by
  unfold isPowerOfTwo
  rw [List.any_eq_true]
  constructor
  · rintro ⟨k, _, hk⟩
    rw [beq_iff_eq] at hk
    exact ⟨k, hk.symm⟩
  · rintro ⟨k, rfl⟩
    refine ⟨k, List.mem_range.mpr ?_, by rw [beq_iff_eq]⟩
    have := Nat.lt_two_pow k
    omega

/-- `try_recv` reports `Disconnected` only with no producers and the cursor
at or past the tail, leaving the state unchanged. -/
theorem try_recv_disconnected {s s1 : MPMCState T}
    (h : try_recv s = (.error .disconnected, s1)) :
    s.writers = 0 ∧ s.sent.length ≤ s.claimed ∧ s1 = s := by
  unfold try_recv at h
  split at h
  · simp_all
  · rename_i hge
    split at h <;> simp_all

/-- Characterization of a blocking `recv` call that returns: the result is
either the element `try_recv` would claim, or the permanent `RecvError`
exactly when producers are gone and the stream is drained. -/
theorem recvLoop_some {fuel : Nat} {s : MPMCState T} {r : Except RecvError T}
    {s1 : MPMCState T} (h : recvLoop fuel s = some (r, s1)) :
    (∀ e, r = .error e → e = .recvError ∧ s.writers = 0 ∧ s.sent.length ≤ s.claimed ∧ s1 = s)
  ∧ (∀ w, r = .ok w → try_recv s = (.ok w, s1)) := by
  revert h
  induction fuel with
  | zero => intro h; simp [recvLoop] at h
  | succ fuel ih =>
    intro h
    unfold recvLoop at h
    rcases htr : try_recv s with ⟨res, s2⟩
    rw [htr] at h
    cases res with
    | ok w =>
      simp only [Option.some.injEq, Prod.mk.injEq] at h
      obtain ⟨hr, hs⟩ := h
      subst hr hs
      constructor
      · intro e he; cases he
      · intro w2 hw2
        cases hw2
        rfl
    | error e =>
      cases e with
      | empty =>
        have hih := ih h
        rw [htr] at hih
        exact hih
      | disconnected =>
        simp only [Option.some.injEq, Prod.mk.injEq] at h
        obtain ⟨hr, hs⟩ := h
        subst hr hs
        obtain ⟨hw, hd, hs2⟩ := try_recv_disconnected htr
        subst hs2
        constructor
        · intro e he
          cases he
          exact ⟨rfl, hw, hd, rfl⟩
        · intro w hw2; cases hw2

/-- A blocking `recv` that yields a value claims exactly what `try_recv`
would. -/
theorem recvBlocking_ok {s : MPMCState T} {v : T} {s1 : MPMCState T}
    (h : recvBlocking s = some (.ok v, s1)) : try_recv s = (.ok v, s1) :=
  (recvLoop_some h).2 v rfl

/-- A blocking `recv` that fails does so with the state unchanged, only once
producers are gone and the stream is drained. -/
theorem recvBlocking_error {s : MPMCState T} {e : RecvError} {s1 : MPMCState T}
    (h : recvBlocking s = some (.error e, s1)) :
    e = .recvError ∧ s.writers = 0 ∧ s.sent.length ≤ s.claimed ∧ s1 = s :=
  (recvLoop_some h).1 e rfl

/-- On a drained stream with no producers, blocking `recv` returns the
permanent error immediately, with the state unchanged. -/
theorem recvBlocking_of_disconnected {s : MPMCState T}
    (hw : s.writers = 0) (hd : s.sent.length ≤ s.claimed) :
    recvBlocking s = some (.error .recvError, s) := by
  have htr : try_recv s = (.error .disconnected, s) := by
    unfold try_recv
    rw [dif_neg (by omega), if_pos hw]
  unfold recvBlocking recvLoop
  rw [htr]

/-- One single-consumer step preserves "the received values are exactly the
published prefix below the cursor, in order". -/
theorem exec_one_list_step (es : ExecState 1 T) (a : GAction 1 T) (inv : ExecInv es)
    (h : (es.recvd 0).map Prod.snd = es.q.sent.take es.q.claimed) :
    ((execStep es a).recvd 0).map Prod.snd
      = (execStep es a).q.sent.take (execStep es a).q.claimed := by
  cases a with
  | send v =>
    rcases try_send_snd es.q v with hs | hs <;> simp only [execStep, hs]
    · exact h
    · rw [List.take_append_eq_append_take, Nat.sub_eq_zero_of_le inv.claimed_le,
          List.take_zero, List.append_nil]
      exact h
  | recv i =>
    have hi : i = 0 := Fin.eq_zero i
    subst hi
    simp only [execStep]
    split
    · rename_i v q1 heq
      obtain ⟨hlt, hv, hq1⟩ := try_recv_ok heq
      subst hv hq1
      dsimp only
      rw [Function.update_same, List.map_append, h, List.take_succ,
          List.getElem?_eq_getElem hlt]
      simp only [Option.toList_some, List.map_cons, List.map_nil]
      rfl
    · exact h

/-- After any single-consumer run, the received values are exactly the
published prefix below the cursor, in publish order. -/
theorem exec_one_list (acts : List (GAction 1 T)) (cap : Nat) :
    ((execRun (initExec 1 cap T) acts).recvd 0).map Prod.snd
      = (execRun (initExec 1 cap T) acts).q.sent.take
          (execRun (initExec 1 cap T) acts).q.claimed := by
  suffices hgen : ∀ es : ExecState 1 T, ExecInv es →
      (es.recvd 0).map Prod.snd = es.q.sent.take es.q.claimed →
      ((execRun es acts).recvd 0).map Prod.snd
        = (execRun es acts).q.sent.take (execRun es acts).q.claimed by
    exact hgen _ (execInv_init 1 cap) (by simp [initExec])
  induction acts with
  | nil => intro es _ h; exact h
  | cons a acts ih =>
    intro es inv h
    exact ih (execStep es a) (execInv_step es a inv) (exec_one_list_step es a inv h)

/-- Claim C1: `try_send(v)` is non-blocking and returns `Ok(())` exactly when
a live consumer exists and the target slot's prior occupant has been fully
consumed, `Err(Full(v))` exactly when a live consumer exists but the slot is
still occupied, and `Err(Disconnected(v))` exactly when there are no live
consumers; in particular, once the only consumer group's last member has
unsubscribed (`readers = 0`), every subsequent `try_send`, after any further
sequence of operations, returns `Disconnected` — never `Full` and never
success. -/
theorem claim1_try_send_taxonomy (s : MPMCState T) (v : T) :
    ((try_send s v).1 = .error (.disconnected v) ↔ s.readers = 0)
  ∧ ((try_send s v).1 = .error (.full v)
      ↔ (s.readers ≠ 0 ∧ s.capacity ≤ s.sent.length - s.claimed))
  ∧ ((try_send s v).1 = .ok ()
      ↔ (s.readers ≠ 0 ∧ s.sent.length - s.claimed < s.capacity))
  ∧ (∀ acts : List (QAction T), s.readers = 0 →
      (try_send (qrun s acts) v).1 = .error (.disconnected v)) := by
  refine ⟨?_, ?_, ?_, ?_⟩
  · unfold try_send
    split
    · simp_all
    · split <;> simp_all
  · unfold try_send
    split
    · simp_all
    · split <;> simp_all
  · unfold try_send
    split
    · simp_all
    · split <;> simp_all
  · intro acts h0
    have hz := readers_zero_qrun s acts h0
    unfold try_send
    rw [if_pos hz]

theorem claim1_witness :
    exNoReaders.readers = 0
  ∧ (try_send (qrun exNoReaders exActsQ) 7).1 = .error (.disconnected 7) :=
  ⟨rfl, (claim1_try_send_taxonomy exNoReaders 7).2.2.2 exActsQ rfl⟩

/-- Claim C2: in any interleaved execution with one producer and `n`
work-sharing consumers in one group, the positions received across the group
are exactly `0, …, claimed-1`, each delivered to exactly one member (the
multiset of received positions equals `Multiset.range claimed`, so there are
no duplicates across members and no gaps); each member's received positions
are strictly increasing (relative publish order); each received value is
exactly the element published at its position; and the multiset of received
values equals the published prefix — in particular, once the group has
drained the queue, it equals exactly the sequence sent. -/
theorem claim2_work_sharing (n cap : Nat) (acts : List (GAction n T)) :
    ((∑ i : Fin n, ((((execRun (initExec n cap T) acts).recvd i).map Prod.fst : List Nat) : Multiset Nat))
        = Multiset.range (execRun (initExec n cap T) acts).q.claimed)
  ∧ (∀ i : Fin n, (((execRun (initExec n cap T) acts).recvd i).map Prod.fst).Pairwise (· < ·))
  ∧ (∀ (i : Fin n) (p : Nat) (v : T), (p, v) ∈ (execRun (initExec n cap T) acts).recvd i →
      (execRun (initExec n cap T) acts).q.sent.get? p = some v)
  ∧ ((∑ i : Fin n, ((((execRun (initExec n cap T) acts).recvd i).map Prod.snd : List T) : Multiset T))
        = (((execRun (initExec n cap T) acts).q.sent.take (execRun (initExec n cap T) acts).q.claimed : List T) : Multiset T))
  ∧ ((execRun (initExec n cap T) acts).q.claimed = (execRun (initExec n cap T) acts).q.sent.length →
      (∑ i : Fin n, ((((execRun (initExec n cap T) acts).recvd i).map Prod.snd : List T) : Multiset T))
        = (((execRun (initExec n cap T) acts).q.sent : List T) : Multiset T)) := by
  have inv := execInv_run (initExec n cap T) acts (execInv_init n cap)
  refine ⟨inv.posM, inv.pos_mono, inv.vals, inv.valM, ?_⟩
  intro hdr
  rw [inv.valM, hdr, List.take_length]

theorem claim2_witness :
    ((execRun (initExec 2 4 Nat) exActs2).q.claimed
        = (execRun (initExec 2 4 Nat) exActs2).q.sent.length)
  ∧ ((∑ i : Fin 2, ((((execRun (initExec 2 4 Nat) exActs2).recvd i).map Prod.snd : List Nat) : Multiset Nat))
        = (((execRun (initExec 2 4 Nat) exActs2).q.sent : List Nat) : Multiset Nat)) :=
  ⟨by decide, (claim2_work_sharing 2 4 exActs2).2.2.2.2 (by decide)⟩

/-- Claim C3: in any interleaved execution with a single producer and a
single consumer, the sequence of values obtained by the consumer's receives
is exactly the published prefix below its cursor, in publish order, with no
duplicates and no omissions; once the consumer has kept pace through the end
(cursor at the tail), it is exactly the sequence sent. -/
theorem claim3_fifo (cap : Nat) (acts : List (GAction 1 T)) :
    (((execRun (initExec 1 cap T) acts).recvd 0).map Prod.snd
        = (execRun (initExec 1 cap T) acts).q.sent.take (execRun (initExec 1 cap T) acts).q.claimed)
  ∧ ((execRun (initExec 1 cap T) acts).q.claimed = (execRun (initExec 1 cap T) acts).q.sent.length →
      ((execRun (initExec 1 cap T) acts).recvd 0).map Prod.snd
        = (execRun (initExec 1 cap T) acts).q.sent) := by
  refine ⟨exec_one_list acts cap, ?_⟩
  intro h
  rw [exec_one_list acts cap, h, List.take_length]

theorem claim3_witness :
    ((execRun (initExec 1 4 Nat) exActs1).q.claimed
        = (execRun (initExec 1 4 Nat) exActs1).q.sent.length)
  ∧ ((execRun (initExec 1 4 Nat) exActs1).recvd 0).map Prod.snd
        = (execRun (initExec 1 4 Nat) exActs1).q.sent :=
  ⟨by decide, (claim3_fifo 4 exActs1).2 (by decide)⟩

/-- Claim C4 counterexample: the claim says `try_recv()` returns a result
distinguishing three error conditions (`Empty`, `Lapped`, `Disconnected`).
But `src/mpmc.rs` line 5 imports `std::sync::mpsc::TryRecvError`, whose only
variants are `Empty` and `Disconnected`, and `try_recv` (lines 126-128)
returns `Result<T, TryRecvError>`: the error type has exactly two
inhabitants, so no third `Lapped` condition exists or can be reported. -/
theorem claim4_counterexample : Fintype.card TryRecvError = 2 := by decide

/-- Claim C4 (amended): `try_recv()` distinguishes exactly two error
conditions — `Empty` (transient: the cursor is at the tail but producers
remain) and `Disconnected` (permanent: the cursor is at the tail and no
producer remains) — and a work-sharing consumer is never lapped: a
successful read returns exactly the element published at the cursor's
position, and a producer's `try_send` succeeds only while the unconsumed
window is below capacity, so it never overwrites an unconsumed slot (it
returns `Full` instead). -/
theorem claim4_two_error_conditions (s : MPMCState T) :
    ((try_recv s).1 = .error .empty ↔ (s.sent.length ≤ s.claimed ∧ s.writers ≠ 0))
  ∧ ((try_recv s).1 = .error .disconnected ↔ (s.sent.length ≤ s.claimed ∧ s.writers = 0))
  ∧ (∀ w, (try_recv s).1 = .ok w →
      ∃ h : s.claimed < s.sent.length, w = s.sent.get ⟨s.claimed, h⟩)
  ∧ (∀ v, (try_send s v).1 = .ok () → s.sent.length - s.claimed < s.capacity) := by
  refine ⟨?_, ?_, ?_, ?_⟩
  · unfold try_recv
    split
    · simp_all
    · split <;> simp_all
  · unfold try_recv
    split
    · simp_all
    · split <;> simp_all
  · intro w hw
    unfold try_recv at hw
    split at hw
    · rename_i hlt
      exact ⟨hlt, by simp_all⟩
    · split at hw <;> simp_all
  · intro v hv
    unfold try_send at hv
    split at hv
    · simp_all
    · split at hv <;> simp_all

theorem claim4_witness :
    (try_recv exOne).1 = .ok 5
  ∧ ∃ h : exOne.claimed < exOne.sent.length, 5 = exOne.sent.get ⟨exOne.claimed, h⟩ :=
  ⟨rfl, (claim4_two_error_conditions exOne).2.2.1 5 rfl⟩

/-- Claim C5: whenever the blocking `recv()` returns (after any number of
wait-strategy rounds), it never surfaces a transient `Empty`-like error: a
returned error is the permanent `RecvError`, produced exactly when every
producer is gone and the cursor has passed the last published position (and
it leaves the state unchanged); otherwise the call returns `Ok` with exactly
the element `try_recv` would claim. -/
theorem claim5_recv_blocking (fuel : Nat) (s : MPMCState T) (r : Except RecvError T)
    (s1 : MPMCState T) (h : recvLoop fuel s = some (r, s1)) :
    (∀ e, r = .error e → e = .recvError ∧ s.writers = 0 ∧ s.sent.length ≤ s.claimed ∧ s1 = s)
  ∧ (∀ w, r = .ok w → try_recv s = (.ok w, s1)) :=
  recvLoop_some h

theorem claim5_witness :
    recvLoop 1 exOne = some (.ok 5, exOneDone)
  ∧ try_recv exOne = (.ok 5, exOneDone) :=
  ⟨rfl, (claim5_recv_blocking 1 exOne (.ok 5) exOneDone rfl).2 5 rfl⟩

/-- Claim C6: `unsubscribe()` (on `MPMCReceiver` and `MPMCUniReceiver` alike)
decrements the owning group's live-member count by one, and returns `true`
if and only if this removal emptied the group — i.e. the departing member,
which the caller holds (`0 < readers`), was the last live member. -/
theorem claim6_unsubscribe (s : MPMCState T) (h : 0 < s.readers) :
    (unsubscribe s).2.readers = s.readers - 1
  ∧ ((unsubscribe s).1 = true ↔ (unsubscribe s).2.readers = 0) := by
  refine ⟨rfl, ?_⟩
  simp only [unsubscribe, beq_iff_eq]
  omega

theorem claim6_witness :
    0 < exOne.readers
  ∧ ((unsubscribe exOne).2.readers = exOne.readers - 1
      ∧ ((unsubscribe exOne).1 = true ↔ (unsubscribe exOne).2.readers = 0)) :=
  ⟨by decide, claim6_unsubscribe exOne (by decide)⟩

/-- Claim C7: the iterator adaptor (`MPMCIter::next`, built by
`IntoIterator for MPMCReceiver`) yields `Some(v)` exactly for each
successful `recv()` result, and yields `None` on the first `recv()` error
(disconnect), leaving the handle unchanged so that every later `next` also
returns `None` (the sequence is not restartable); in particular once the
producers are gone and the buffered elements are drained, `next` returns
`None`, so the sequence is finite. -/
theorem claim7_iterator (it : MPMCIter T) :
    (∀ v it2, it.next = some (some v, it2) → recvBlocking it.recv = some (.ok v, it2.recv))
  ∧ (∀ it2, it.next = some (none, it2) → it2 = it ∧ it2.next = some (none, it2))
  ∧ (it.recv.writers = 0 → it.recv.sent.length ≤ it.recv.claimed →
      it.next = some (none, it)) := by
  have hdisc : it.recv.writers = 0 → it.recv.sent.length ≤ it.recv.claimed →
      it.next = some (none, it) := by
    intro hw hd
    unfold MPMCIter.next
    rw [recvBlocking_of_disconnected hw hd]
  refine ⟨?_, ?_, hdisc⟩
  · intro v it2 h
    unfold MPMCIter.next at h
    rcases hb : recvBlocking it.recv with _ | ⟨r, s1⟩
    · rw [hb] at h; cases h
    · rw [hb] at h
      cases r with
      | ok w =>
        simp only [Option.some.injEq, Prod.mk.injEq] at h
        obtain ⟨hw2, hit⟩ := h
        cases hw2
        rw [← hit]
      | error e => simp at h
  · intro it2 h
    unfold MPMCIter.next at h
    rcases hb : recvBlocking it.recv with _ | ⟨r, s1⟩
    · rw [hb] at h; cases h
    · rw [hb] at h
      cases r with
      | ok w => simp at h
      | error e =>
        simp only [Option.some.injEq, Prod.mk.injEq, true_and] at h
        obtain ⟨he2, hw, hd, hs⟩ := recvBlocking_error hb
        subst hs
        refine ⟨h.symm, ?_⟩
        rw [← h]
        exact hdisc hw hd

theorem claim7_witness :
    (MPMCIter.mk exDrained).recv.writers = 0
  ∧ (MPMCIter.mk exDrained).recv.sent.length ≤ (MPMCIter.mk exDrained).recv.claimed
  ∧ (MPMCIter.mk exDrained).next = some (none, MPMCIter.mk exDrained) :=
  ⟨rfl, by decide, (claim7_iterator (MPMCIter.mk exDrained)).2.2 rfl (by decide)⟩

/-- Claim C8: the in-place view read (`try_recv_view`, exposed only on the
single-known-consumer `MPMCUniReceiver`) is, when it succeeds, semantically
identical to `try_recv` followed by applying the closure: it succeeds
exactly when `try_recv` succeeds, consumes the same element, performs the
same cursor/slot bookkeeping (identical post-state), and returns the closure
applied to that element. -/
theorem claim8_view (op : T → R) (s : MPMCState T) :
    (∀ v s1, try_recv s = (.ok v, s1) → try_recv_view op s = (.ok (op v), s1))
  ∧ (∀ r s1, try_recv_view op s = (.ok r, s1) →
      ∃ v, try_recv s = (.ok v, s1) ∧ r = op v) := by
  constructor
  · intro v s1 h
    unfold try_recv at h
    unfold try_recv_view
    split at h
    · rename_i hlt
      rw [dif_pos hlt]
      simp_all
    · split at h <;> simp_all
  · intro r s1 h
    unfold try_recv_view at h
    unfold try_recv
    split at h
    · rename_i hlt
      rw [dif_pos hlt]
      refine ⟨s.sent.get ⟨s.claimed, hlt⟩, ?_, ?_⟩ <;> simp_all
    · split at h <;> simp_all

theorem claim8_witness :
    try_recv exOne = (.ok 5, exOneDone)
  ∧ try_recv_view (fun x => x + 1) exOne = (.ok 6, exOneDone) :=
  ⟨rfl, (claim8_view (fun x => x + 1) exOne).1 5 exOneDone rfl⟩

/-- Claim C9: constructing a queue with a capacity that is not a power of
two is fatal at construction time (`mpmc_queue` yields no queue exactly when
the capacity is not a power of two), while no non-construction operation
ever faults: `try_send` and `try_recv` are total and always return one of
the explicit result values of their taxonomy (`Ok`/`Full`/`Disconnected`,
resp. `Ok`/`Empty`/`Disconnected`). -/
theorem claim9_construction (cap : Nat) (s : MPMCState T) (v : T) :
    (mpmc_queue T cap = none ↔ ¬∃ k, cap = 2 ^ k)
  ∧ ((try_send s v).1 = .ok () ∨ (try_send s v).1 = .error (.full v)
      ∨ (try_send s v).1 = .error (.disconnected v))
  ∧ ((∃ w, (try_recv s).1 = .ok w) ∨ (try_recv s).1 = .error .empty
      ∨ (try_recv s).1 = .error .disconnected) := by
  refine ⟨?_, ?_, ?_⟩
  · unfold mpmc_queue MultiQueue.new
    by_cases h : isPowerOfTwo cap = true
    · have h2 := (isPowerOfTwo_iff cap).mp h
      simp [h, h2]
    · have h2 : ¬∃ k, cap = 2 ^ k := fun hx => h ((isPowerOfTwo_iff cap).mpr hx)
      simp [h, h2]
  · unfold try_send
    split
    · simp
    · split <;> simp
  · unfold try_recv
    split
    · simp
    · split <;> simp

theorem claim9_witness :
    ((mpmc_queue Nat 3 = none ↔ ¬∃ k, (3 : Nat) = 2 ^ k)
  ∧ ((try_send exOne 7).1 = .ok () ∨ (try_send exOne 7).1 = .error (.full 7)
      ∨ (try_send exOne 7).1 = .error (.disconnected 7))
  ∧ ((∃ w, (try_recv exOne).1 = .ok w) ∨ (try_recv exOne).1 = .error .empty
      ∨ (try_recv exOne).1 = .error .disconnected)) :=
  claim9_construction 3 exOne 7

/-- Claim C10: when the view reads fail, the original closure is returned
unapplied to the caller together with the error, and nothing is consumed:
`try_recv_view` hands back exactly the closure it was given with the
`try_recv` error for the same state, leaving the cursor and slots unchanged;
the blocking `recv_view` fails only with the closure returned unapplied, the
permanent error, and the state unchanged (producers gone, stream drained).
The closure is applied exactly once, and only on the success path (claim C8
covers the success side). -/
theorem claim10_view_failure (op : T → R) (s : MPMCState T) :
    (∀ f e s1, try_recv_view op s = (.error (f, e), s1) →
      f = op ∧ s1 = s ∧ try_recv s = (.error e, s))
  ∧ (∀ f e s1, recv_view op s = some (.error (f, e), s1) →
      f = op ∧ s1 = s ∧ e = .recvError ∧ s.writers = 0 ∧ s.sent.length ≤ s.claimed) := by
  constructor
  · intro f e s1 h
    unfold try_recv_view at h
    unfold try_recv
    split at h
    · simp_all
    · rename_i hge
      rw [dif_neg hge]
      split at h
      · rename_i hw
        rw [if_pos hw]
        simp_all
      · rename_i hw
        rw [if_neg hw]
        simp_all
  · intro f e s1 h
    unfold recv_view at h
    rcases hb : recvBlocking s with _ | ⟨r, s2⟩
    · rw [hb] at h; cases h
    · rw [hb] at h
      cases r with
      | ok w => simp at h
      | error e2 =>
        simp only [Option.some.injEq, Prod.mk.injEq, Except.error.injEq] at h
        obtain ⟨⟨hf, -⟩, hs⟩ := h
        obtain ⟨he2, hw, hd, hs2⟩ := recvBlocking_error hb
        cases e
        subst hf hs hs2
        exact ⟨rfl, rfl, rfl, hw, hd⟩

theorem claim10_witness :
    ((fun x : Nat => x + 1) = (fun x : Nat => x + 1)
  ∧ exDrained = exDrained
  ∧ try_recv exDrained = (.error .disconnected, exDrained)) :=
  (claim10_view_failure (fun x => x + 1) exDrained).1 (fun x => x + 1) .disconnected exDrained rfl

end Multiqueue
